import Mathlib

set_option autoImplicit false

/-!
Shallow embedding of creme/model_selection/score.py: the function
progressive_val_score, which replays a question/answer event stream
produced by an external delay simulator, interleaving prediction,
metric updates and training, with optional progress diagnostics.

The model, metric and stream simulator are external collaborators; they
are embedded as records of pure functions plus explicit state threading.
Mutation of the model and metric is embedded as explicit state passing;
Python exceptions are embedded as a result type that carries the state
reached when the exception was raised (side effects performed before the
raise persist, as they do in Python).
-/

namespace Creme

/-- Python values that can appear as predictions: predict_one returns a
scalar (number, bool, string or None), predict_proba_one returns a
mapping from class label to probability. The code only inspects a
prediction through the comparison y_pred != \x7b\x7d and the test
y_pred is not None, so this universe of standard values is enough. -/
inductive PyVal where
  | vNone : PyVal
  | vBool (b : Bool) : PyVal
  | vInt (n : Int) : PyVal
  | vFloat (q : Rat) : PyVal
  | vStr (s : String) : PyVal
  | vDict (entries : List (Nat × Rat)) : PyVal
deriving DecidableEq

/-- The source comparison y_pred != \x7b\x7d: Python equality of a
standard value against the empty dict is false exactly when the value is
a dict with no entries, so the disequality holds unless y_pred is an
empty mapping. -/
def pyNeEmptyDict : PyVal → Bool
  | .vDict entries => !entries.isEmpty
  | _ => true

/-- The source test y_pred is None. -/
def pyIsNone : PyVal → Bool
  | .vNone => true
  | _ => false

/-- The Python dict assignment preds[i] = p: overwrite the entry in
place when the key is present, otherwise append a new entry. -/
def dictInsert (d : List (Nat × PyVal)) (i : Nat) (p : PyVal) : List (Nat × PyVal) :=
  if d.any (fun q => q.1 == i) then
    d.map (fun q => if q.1 == i then (i, p) else q)
  else
    d ++ [(i, p)]

/-- The Python call preds.pop(i): the value stored at the key together
with the remaining dict, or none when the key is absent (KeyError). -/
def dictPop (d : List (Nat × PyVal)) (i : Nat) : Option (PyVal × List (Nat × PyVal)) :=
  match d.find? (fun q => q.1 == i) with
  | some q => some (q.2, d.filter (fun r => r.1 != i))
  | none => none

/-- One event of the stream produced by stream.simulate_qa: an index, a
feature dictionary, and either none (a question: the label is not yet
revealed) or the revealed label (an answer). -/
structure Event (F L : Type) where
  i : Nat
  x : F
  y : Option L
deriving DecidableEq

/-- The model collaborator: prediction calls read the learned state,
fit_one returns the new learned state, and the introspection hook
reports a human-readable memory figure. -/
structure Model (M F L : Type) where
  predict_one : M → F → PyVal
  predict_proba_one : M → F → PyVal
  fit_one : M → F → L → M
  memory_usage : M → String
  is_classifier : Bool

/-- The metric collaborator: a compatibility check against the model, a
flag telling whether it needs hard labels, the accumulator update taking
the true label then the prediction, and a display form. -/
structure Metric (Me M L : Type) where
  works_with : M → Bool
  requires_labels : Bool
  update : Me → L → PyVal → Me
  repr : Me → String

/-- Everything fixed for the whole run: the model and metric records,
the diagnostic options, and the perf_counter clock (reading index to
value, embedding the external clock). -/
structure RunCtx (M Me F L : Type) where
  md : Model M F L
  mt : Metric Me M L
  print_every : Nat
  show_time : Bool
  show_memory : Bool
  clock : Nat → Nat

/-- Which prediction call the loop uses, fixed before the loop begins:
predict_proba_one for a classifier whose metric accepts probabilities,
predict_one otherwise. -/
def pred_func {M Me F L : Type} (ctx : RunCtx M Me F L) : M → F → PyVal :=
  if ctx.md.is_classifier && !ctx.mt.requires_labels then
    ctx.md.predict_proba_one
  else
    ctx.md.predict_one

/-- One diagnostic line, kept structurally: the answered-observation
counter, the metric display, the elapsed whole seconds when show_time is
set, and the memory figure when show_memory is set. -/
structure Msg where
  n_total_answers : Nat
  metric_repr : String
  time_part : Option Nat
  memory_part : Option String
deriving DecidableEq

/-- One externally visible operation on the collaborators, recorded in
execution order: a prediction computed at a question event, a metric
update, or a training call. -/
inductive Op (F L : Type) where
  | predictOp (i : Nat) (x : F) (p : PyVal) : Op F L
  | updateOp (i : Nat) (y : L) (p : PyVal) : Op F L
  | trainOp (i : Nat) (x : F) (y : L) : Op F L
deriving DecidableEq

/-- The mutable state of a run: model and metric states, the pending
predictions dict, the answer counter, the clock start value and the
number of clock reads so far, the diagnostic lines printed so far, and
the trace of collaborator operations performed so far. -/
structure RunState (M Me F L : Type) where
  model : M
  metric : Me
  preds : List (Nat × PyVal)
  n_total_answers : Nat
  start : Nat
  clockIdx : Nat
  out : List Msg
  trace : List (Op F L)
deriving DecidableEq

/-- Outcome of running Python code that may raise: ok with the final
state, or an exception together with the state reached at the point of
the raise (all side effects performed before the raise persist). -/
inductive PyError where
  | valueError : PyError
  | keyError (i : Nat) : PyError
deriving DecidableEq

/-- Result of a run: normal return or a propagating exception, in both
cases with the state. -/
inductive RunResult (σ : Type) where
  | ok (s : σ) : RunResult σ
  | err (e : PyError) (s : σ) : RunResult σ
deriving DecidableEq

/-- The state carried by a run result, whether it returned or raised. -/
def RunResult.state {σ : Type} : RunResult σ → σ
  | .ok s => s
  | .err _ s => s

/-- The body of the for loop of progressive_val_score for one event.
A question stores pred_func(x) under the index and moves on. An answer
pops the pending prediction (KeyError when absent, raised before any
mutation), updates the metric when the prediction is neither an empty
mapping nor None, always trains the model, increments the counter, and
prints a diagnostic line when print_every is nonzero and divides the
counter. -/
def step {M Me F L : Type} (ctx : RunCtx M Me F L) (s : RunState M Me F L)
    (e : Event F L) : RunResult (RunState M Me F L) :=
  match e.y with
  | none =>
    let p := pred_func ctx s.model e.x
    .ok { s with preds := dictInsert s.preds e.i p,
                 trace := s.trace ++ [.predictOp e.i e.x p] }
  | some y =>
    match dictPop s.preds e.i with
    | none => .err (.keyError e.i) s
    | some (y_pred, preds') =>
      let doUpd := pyNeEmptyDict y_pred && !(pyIsNone y_pred)
      let metric' := if doUpd then ctx.mt.update s.metric y y_pred else s.metric
      let model' := ctx.md.fit_one s.model e.x y
      let n' := s.n_total_answers + 1
      let trace' := s.trace ++ (if doUpd then [Op.updateOp e.i y y_pred] else [])
                      ++ [Op.trainOp e.i e.x y]
      if ctx.print_every != 0 && n' % ctx.print_every == 0 then
        let tp : Option Nat := if ctx.show_time then some (ctx.clock s.clockIdx - s.start) else none
        let ci' : Nat := if ctx.show_time then s.clockIdx + 1 else s.clockIdx
        let mp : Option String := if ctx.show_memory then some (ctx.md.memory_usage model') else none
        .ok { model := model', metric := metric', preds := preds', n_total_answers := n',
              start := s.start, clockIdx := ci',
              out := s.out ++ [⟨n', ctx.mt.repr metric', tp, mp⟩], trace := trace' }
      else
        .ok { s with model := model', metric := metric', preds := preds',
                     n_total_answers := n', trace := trace' }

/-- The for loop of progressive_val_score over the event stream; an
exception raised by an iteration propagates, skipping the rest. -/
def runEvents {M Me F L : Type} (ctx : RunCtx M Me F L) :
    List (Event F L) → RunState M Me F L → RunResult (RunState M Me F L)
  | [], s => .ok s
  | e :: es, s =>
    match step ctx s e with
    | .err ex s' => .err ex s'
    | .ok s' => runEvents ctx es s'

/-- The state just before the loop: the given model and metric states,
an empty pending dict, counter zero, nothing printed, empty trace; the
clock is read once for the start time when show_time is set. -/
def initState {M Me F L : Type} (ctx : RunCtx M Me F L) (m : M) (me : Me) :
    RunState M Me F L :=
  { model := m, metric := me, preds := [], n_total_answers := 0,
    start := if ctx.show_time then ctx.clock 0 else 0,
    clockIdx := if ctx.show_time then 1 else 0,
    out := [], trace := [] }

/-- progressive_val_score, taking the event stream already produced by
the external simulate_qa collaborator: first the compatibility check
(ValueError before any event is consumed), then the loop; the final
metric is the metric field of the returned state. -/
def progressive_val_score {M Me F L : Type} (ctx : RunCtx M Me F L)
    (events : List (Event F L)) (m : M) (me : Me) :
    RunResult (RunState M Me F L) :=
  if ctx.mt.works_with m then
    runEvents ctx events (initState ctx m me)
  else
    .err .valueError (initState ctx m me)

/-- The question event then the answer event for one observation at a
given arrival index. -/
def qaPair {F L : Type} (q : Nat × F × L) : List (Event F L) :=
  [⟨q.1, q.2.1, none⟩, ⟨q.1, q.2.1, some q.2.2⟩]

/-- Modelled from the spec: the stream.simulate_qa collaborator with no
moment and no delay configured (its implementation lives outside this
file's source). With no delay no events are reordered: each observation,
indexed by arrival position, yields its question event immediately
followed by its answer event, in arrival order. -/
def simulate_qa_nodelay {F L : Type} (X_y : List (F × L)) : List (Event F L) :=
  X_y.enum.flatMap qaPair

/-- Modelled from the spec: the manual reference loop against which the
no-delay run is compared. For each observation in arrival order it
computes the prediction, updates the metric with it, and then trains the
model; it returns the final model and metric states. -/
def manual_run {M Me F L : Type} (ctx : RunCtx M Me F L) (m : M) (me : Me) :
    List (F × L) → M × Me
  | [] => (m, me)
  | (x, y) :: rest =>
    let y_pred := pred_func ctx m x
    manual_run ctx (ctx.md.fit_one m x y) (ctx.mt.update me y y_pred) rest

/-- The spec's well-formedness machine for an event stream, tracking the
outstanding (asked but not yet answered) indices in order: a question
must carry a fresh index and adds it, an answer must carry an
outstanding index and removes it; the result is the final outstanding
list, or none when the stream violates the discipline. -/
def qaOutstanding {F L : Type} (l : List Nat) : List (Event F L) → Option (List Nat)
  | [] => some l
  | e :: es =>
    match e.y with
    | none => if e.i ∈ l then none else qaOutstanding (l ++ [e.i]) es
    | some _ => if e.i ∈ l then qaOutstanding (l.filter (fun j => j != e.i)) es else none

/-- A well-formed finite stream: every question index is fresh when
asked and every asked index is eventually answered. -/
def wellFormed {F L : Type} (events : List (Event F L)) : Prop :=
  qaOutstanding [] events = some []

/-- The counters at which the loop prints a diagnostic line during the
first n answered observations: the positive multiples of print_every, in
increasing order; no counter at all when print_every is zero. -/
def printedCounters (print_every n : Nat) : List Nat :=
  ((List.range n).map (fun k => k + 1)).filter
    (fun k => print_every != 0 && k % print_every == 0)

/-- Progressive-validation ordering over a trace: every metric update is
immediately followed by the training call on the same observation, and
uses a prediction recorded strictly earlier at a question event with the
same index. -/
def traceOrdered {F L : Type} (t : List (Op F L)) : Prop :=
  ∀ k i y p, t[k]? = some (Op.updateOp i y p) →
    (∃ x, t[k + 1]? = some (Op.trainOp i x y)) ∧
    (∃ (j : Nat) (x : F), j < k ∧ t[j]? = some (Op.predictOp i x p))

/-- The number of training calls recorded in a trace. -/
def countTrain {F L : Type} (t : List (Op F L)) : Nat :=
  t.countP (fun o => match o with | Op.trainOp _ _ _ => true | _ => false)

/-- The diagnostic-independent part of the state: model, metric, pending
predictions, answer counter and operation trace, everything except the
printed lines and clock bookkeeping. -/
def coreOf {M Me F L : Type} (s : RunState M Me F L) :
    M × Me × List (Nat × PyVal) × Nat × List (Op F L) :=
  (s.model, s.metric, s.preds, s.n_total_answers, s.trace)

/-- The diagnostic-independent part of a run result: whether it raised,
which exception, and the core of the state. -/
def coreResult {M Me F L : Type} (r : RunResult (RunState M Me F L)) :
    Option PyError × (M × Me × List (Nat × PyVal) × Nat × List (Op F L)) :=
  match r with
  | .ok s => (none, coreOf s)
  | .err e s => (some e, coreOf s)

/-- A concrete regressor-style model over Nat state: predicts its state
as a number and adds the label when trained. -/
def natModel : Model Nat Unit Nat :=
  { predict_one := fun m _ => .vInt m
    predict_proba_one := fun _ _ => .vDict [(0, 1)]
    fit_one := fun m _ y => m + y
    memory_usage := fun _ => ""
    is_classifier := false }

/-- A concrete metric over Nat state that counts its updates and is
compatible with every model. -/
def natMetric : Metric Nat Nat Nat :=
  { works_with := fun _ => true
    requires_labels := true
    update := fun me _ _ => me + 1
    repr := fun _ => "" }

/-- A metric that declares itself incompatible with every model. -/
def badMetric : Metric Nat Nat Nat :=
  { natMetric with works_with := fun _ => false }

/-- A concrete run context built from natModel and natMetric, printing
every 5 answers. -/
def natCtx : RunCtx Nat Nat Unit Nat :=
  { md := natModel, mt := natMetric, print_every := 5,
    show_time := false, show_memory := false, clock := fun _ => 0 }

/-- The natCtx context with the incompatible metric. -/
def badCtx : RunCtx Nat Nat Unit Nat :=
  { natCtx with mt := badMetric }

/-- A ten-observation stream for the diagnostic scenario. -/
def stream10 : List (Unit × Nat) := List.replicate 10 ((), 1)

/-- A cold-start model: its prediction is always the empty mapping. -/
def coldModel : Model Unit Unit Unit :=
  { predict_one := fun _ _ => .vDict []
    predict_proba_one := fun _ _ => .vDict []
    fit_one := fun _ _ _ => ()
    memory_usage := fun _ => ""
    is_classifier := false }

/-- An update-counting metric over the cold model's types. -/
def countMetric : Metric Nat Unit Unit :=
  { works_with := fun _ => true
    requires_labels := true
    update := fun me _ _ => me + 1
    repr := fun _ => "" }

/-- The run context pairing the cold-start model with the counting
metric. -/
def coldCtx : RunCtx Unit Nat Unit Unit :=
  { md := coldModel, mt := countMetric, print_every := 0,
    show_time := false, show_memory := false, clock := fun _ => 0 }

/-- Every pending prediction was recorded in the trace at a question
event: each dict entry has a matching predict operation. -/
def predsTraced {M Me F L : Type} (s : RunState M Me F L) : Prop :=
  ∀ q ∈ s.preds, ∃ (j : Nat) (x : F), s.trace[j]? = some (Op.predictOp q.1 x q.2)

lemma dictPop_some {d : List (Nat × PyVal)} {i : Nat} {p : PyVal} {d' : List (Nat × PyVal)}
    (h : dictPop d i = some (p, d')) :
    (i, p) ∈ d ∧ d' = d.filter (fun r => r.1 != i) := by
  unfold dictPop at h
  cases hf : d.find? (fun q => q.1 == i) with
  | none => rw [hf] at h; exact absurd h (by simp)
  | some q0 =>
    rw [hf] at h
    have hmem : q0 ∈ d := List.mem_of_find?_eq_some hf
    have hkey : q0.1 = i := by simpa using List.find?_some hf
    have hp : q0.2 = p ∧ d.filter (fun r => r.1 != i) = d' := by
      simpa [Prod.ext_iff] using h
    refine ⟨?_, hp.2.symm⟩
    have : (i, p) = q0 := by
      cases q0; simp_all
    rw [this]; exact hmem

lemma dictPop_of_mem {d : List (Nat × PyVal)} {i : Nat} (h : i ∈ d.map Prod.fst) :
    ∃ p, dictPop d i = some (p, d.filter (fun r => r.1 != i)) := by
  unfold dictPop
  cases hf : d.find? (fun q => q.1 == i) with
  | none =>
    exfalso
    rcases List.mem_map.mp h with ⟨q, hq, hqi⟩
    exact List.find?_eq_none.mp hf q hq (by simp [hqi])
  | some q0 => exact ⟨q0.2, rfl⟩

lemma dictInsert_fresh {d : List (Nat × PyVal)} {i : Nat} (p : PyVal)
    (h : i ∉ d.map Prod.fst) : dictInsert d i p = d ++ [(i, p)] := by
  unfold dictInsert
  rw [if_neg]
  intro hc
  rcases List.any_eq_true.mp hc with ⟨q, hq, hqi⟩
  exact h (List.mem_map.mpr ⟨q, hq, by simpa using hqi⟩)

lemma mem_dictInsert {d : List (Nat × PyVal)} {i : Nat} {p : PyVal} {q : Nat × PyVal}
    (h : q ∈ dictInsert d i p) : q ∈ d ∨ q = (i, p) := by
  unfold dictInsert at h
  split at h
  · rcases List.mem_map.mp h with ⟨a, ha, hq⟩
    by_cases hai : a.1 = i
    · right; rw [if_pos (by simp [hai])] at hq; exact hq.symm
    · left; rw [if_neg (by simp [hai])] at hq; exact hq ▸ ha
  · rcases List.mem_append.mp h with h | h
    · left; exact h
    · right; simpa using h

lemma keys_filter (d : List (Nat × PyVal)) (i : Nat) :
    (d.filter (fun r => r.1 != i)).map Prod.fst
      = (d.map Prod.fst).filter (fun j => j != i) := by
  induction d with
  | nil => rfl
  | cons a t ih =>
    by_cases h : a.1 = i
    · simp [List.filter_cons, h, ih]
    · simp [List.filter_cons, h, ih]

lemma find?_overwrite (d : List (Nat × PyVal)) (i : Nat) (p : PyVal)
    (h : d.any (fun q => q.1 == i) = true) :
    (d.map (fun q => if q.1 == i then (i, p) else q)).find? (fun q => q.1 == i)
      = some (i, p) := by
  induction d with
  | nil => simp at h
  | cons a t ih =>
    by_cases hai : a.1 = i
    · simp [List.find?_cons, hai]
    · have hai' : (a.1 == i) = false := by simp [hai]
      simp only [List.map_cons, hai', if_neg, Bool.false_eq_true, not_false_eq_true]
      rw [List.find?_cons_of_neg _ (by simp [hai])]
      apply ih
      simpa [hai'] using h

lemma find?_append_fresh (d : List (Nat × PyVal)) (i : Nat) (p : PyVal)
    (h : d.any (fun q => q.1 == i) = false) :
    (d ++ [(i, p)]).find? (fun q => q.1 == i) = some (i, p) := by
  induction d with
  | nil => simp
  | cons a t ih =>
    have hai : (a.1 == i) = false := by
      cases hb : (a.1 == i) with
      | false => rfl
      | true => exact absurd h (by simp [List.any_cons, hb])
    rw [List.cons_append, List.find?_cons_of_neg _ (by simp [hai])]
    apply ih
    simpa [hai] using h

lemma find?_dictInsert (d : List (Nat × PyVal)) (i : Nat) (p : PyVal) :
    (dictInsert d i p).find? (fun q => q.1 == i) = some (i, p) := by
  unfold dictInsert
  split
  case isTrue h => exact find?_overwrite d i p h
  case isFalse h => exact find?_append_fresh d i p (Bool.eq_false_iff.mpr h)

lemma dictPop_dictInsert_self (d : List (Nat × PyVal)) (i : Nat) (p : PyVal) :
    dictPop (dictInsert d i p) i
      = some (p, (dictInsert d i p).filter (fun r => r.1 != i)) := by
  unfold dictPop
  rw [find?_dictInsert]

lemma step_question {M Me F L : Type} (ctx : RunCtx M Me F L) (s : RunState M Me F L)
    (e : Event F L) (h : e.y = none) :
    step ctx s e = .ok { s with
      preds := dictInsert s.preds e.i (pred_func ctx s.model e.x),
      trace := s.trace ++ [Op.predictOp e.i e.x (pred_func ctx s.model e.x)] } := by
  obtain ⟨i, x, ey⟩ := e
  cases ey with
  | none => rfl
  | some yv => exact absurd h (by simp)

lemma step_answer_missing {M Me F L : Type} (ctx : RunCtx M Me F L) (s : RunState M Me F L)
    (e : Event F L) (y : L) (hy : e.y = some y) (hp : dictPop s.preds e.i = none) :
    step ctx s e = .err (.keyError e.i) s := by
  obtain ⟨i, x, ey⟩ := e
  cases ey with
  | none => exact absurd hy (by simp)
  | some yv =>
    have hyv : yv = y := by simpa using hy
    subst hyv
    simp only [step]
    rw [hp]

lemma step_answer_found {M Me F L : Type} (ctx : RunCtx M Me F L) (s : RunState M Me F L)
    (e : Event F L) (y : L) (p : PyVal) (d' : List (Nat × PyVal))
    (hy : e.y = some y) (hp : dictPop s.preds e.i = some (p, d')) :
    ∃ s', step ctx s e = .ok s' ∧
      s'.model = ctx.md.fit_one s.model e.x y ∧
      s'.metric = (if pyNeEmptyDict p && !(pyIsNone p)
                   then ctx.mt.update s.metric y p else s.metric) ∧
      s'.preds = d' ∧
      s'.n_total_answers = s.n_total_answers + 1 ∧
      s'.start = s.start ∧
      s'.trace = s.trace
        ++ (if pyNeEmptyDict p && !(pyIsNone p) then [Op.updateOp e.i y p] else [])
        ++ [Op.trainOp e.i e.x y] ∧
      s'.out.map Msg.n_total_answers = s.out.map Msg.n_total_answers
        ++ (if ctx.print_every != 0 && (s.n_total_answers + 1) % ctx.print_every == 0
            then [s.n_total_answers + 1] else []) := by
  obtain ⟨i, x, ey⟩ := e
  cases ey with
  | none => exact absurd hy (by simp)
  | some yv =>
    have hyv : yv = y := by simpa using hy
    subst hyv
    simp only [step] at *
    rw [hp]
    dsimp only
    split
    case isTrue hc =>
      refine ⟨_, rfl, rfl, rfl, rfl, rfl, rfl, rfl, ?_⟩
      simp
    case isFalse hc =>
      refine ⟨_, rfl, rfl, rfl, rfl, rfl, rfl, rfl, ?_⟩
      simp

lemma runEvents_append {M Me F L : Type} (ctx : RunCtx M Me F L)
    (l1 l2 : List (Event F L)) (s : RunState M Me F L) :
    runEvents ctx (l1 ++ l2) s =
      match runEvents ctx l1 s with
      | .ok s' => runEvents ctx l2 s'
      | .err ex s' => .err ex s' := by
  induction l1 generalizing s with
  | nil => rfl
  | cons e es ih =>
    rw [List.cons_append]
    conv_lhs => rw [runEvents]
    conv_rhs => rw [runEvents]
    cases step ctx s e with
    | err ex s' => rfl
    | ok s' => exact ih s'

lemma coreResult_step {M Me F L : Type} (md : Model M F L) (mt : Metric Me M L)
    (pe1 pe2 : Nat) (t1 t2 mm1 mm2 : Bool) (c1 c2 : Nat → Nat)
    (s1 s2 : RunState M Me F L) (h : coreOf s1 = coreOf s2) (e : Event F L) :
    coreResult (step ⟨md, mt, pe1, t1, mm1, c1⟩ s1 e)
      = coreResult (step ⟨md, mt, pe2, t2, mm2, c2⟩ s2 e) := by
  simp only [coreOf, Prod.mk.injEq] at h
  obtain ⟨h1, h2, h3, h4, h5⟩ := h
  obtain ⟨i, x, ey⟩ := e
  cases ey with
  | none =>
    simp only [step, coreResult, coreOf, pred_func, h1, h2, h3, h4, h5]
  | some yv =>
    cases hpop : dictPop s2.preds i with
    | none =>
      have hpop1 : dictPop s1.preds i = none := by rw [h3]; exact hpop
      rw [step_answer_missing _ s1 ⟨i, x, some yv⟩ yv rfl hpop1,
          step_answer_missing _ s2 ⟨i, x, some yv⟩ yv rfl hpop]
      simp [coreResult, coreOf, h1, h2, h3, h4, h5]
    | some pd =>
      obtain ⟨p, d'⟩ := pd
      have hpop1 : dictPop s1.preds i = some (p, d') := by rw [h3]; exact hpop
      obtain ⟨s1', hs1, hm1, hme1, hp1, hn1, -, ht1, -⟩ :=
        step_answer_found ⟨md, mt, pe1, t1, mm1, c1⟩ s1 ⟨i, x, some yv⟩ yv p d' rfl hpop1
      obtain ⟨s2', hs2, hm2, hme2, hp2, hn2, -, ht2, -⟩ :=
        step_answer_found ⟨md, mt, pe2, t2, mm2, c2⟩ s2 ⟨i, x, some yv⟩ yv p d' rfl hpop
      rw [hs1, hs2]
      simp only [coreResult, coreOf, Prod.mk.injEq]
      exact ⟨trivial, by rw [hm1, hm2, h1], by rw [hme1, hme2, h2], by rw [hp1, hp2],
             by rw [hn1, hn2, h4], by rw [ht1, ht2, h5]⟩

lemma coreResult_runEvents {M Me F L : Type} (md : Model M F L) (mt : Metric Me M L)
    (pe1 pe2 : Nat) (t1 t2 mm1 mm2 : Bool) (c1 c2 : Nat → Nat)
    (events : List (Event F L)) :
    ∀ s1 s2 : RunState M Me F L, coreOf s1 = coreOf s2 →
      coreResult (runEvents ⟨md, mt, pe1, t1, mm1, c1⟩ events s1)
        = coreResult (runEvents ⟨md, mt, pe2, t2, mm2, c2⟩ events s2) := by
  induction events with
  | nil => intro s1 s2 h; simp [runEvents, coreResult, h]
  | cons e es ih =>
    intro s1 s2 h
    have hstep := coreResult_step md mt pe1 pe2 t1 t2 mm1 mm2 c1 c2 s1 s2 h e
    unfold runEvents
    cases h1 : step ⟨md, mt, pe1, t1, mm1, c1⟩ s1 e with
    | err ex1 s1' =>
      cases h2 : step ⟨md, mt, pe2, t2, mm2, c2⟩ s2 e with
      | err ex2 s2' =>
        rw [h1, h2] at hstep
        simpa [coreResult] using hstep
      | ok s2' =>
        rw [h1, h2] at hstep
        exact absurd hstep (by simp [coreResult])
    | ok s1' =>
      cases h2 : step ⟨md, mt, pe2, t2, mm2, c2⟩ s2 e with
      | err ex2 s2' =>
        rw [h1, h2] at hstep
        exact absurd hstep (by simp [coreResult])
      | ok s2' =>
        rw [h1, h2] at hstep
        apply ih
        simpa [coreResult] using hstep

lemma getElem?_append_cases {α : Type} (l1 l2 : List α) (k : Nat) (b : α)
    (h : (l1 ++ l2)[k]? = some b) :
    (k < l1.length ∧ l1[k]? = some b) ∨ (∃ m, k = l1.length + m ∧ l2[m]? = some b) := by
  by_cases hk : k < l1.length
  · left
    exact ⟨hk, by rwa [List.getElem?_append_left hk] at h⟩
  · right
    push_neg at hk
    refine ⟨k - l1.length, by omega, ?_⟩
    rwa [List.getElem?_append_right hk] at h

lemma getElem?_lt_of_some {α : Type} {l : List α} {k : Nat} {b : α}
    (h : l[k]? = some b) : k < l.length := by
  rcases List.getElem?_eq_some.mp h with ⟨hlt, -⟩
  exact hlt

lemma traceOrdered_append_predict {F L : Type} {t : List (Op F L)} (ho : traceOrdered t)
    (i : Nat) (x : F) (p : PyVal) : traceOrdered (t ++ [Op.predictOp i x p]) := by
  intro k i' y' p' hk
  rcases getElem?_append_cases t _ k _ hk with ⟨hlt, hold⟩ | ⟨m, hm, hnew⟩
  · obtain ⟨⟨xa, hxa⟩, ⟨j, xb, hj, hjb⟩⟩ := ho k i' y' p' hold
    refine ⟨⟨xa, ?_⟩, ⟨j, xb, hj, ?_⟩⟩
    · rw [List.getElem?_append_left (getElem?_lt_of_some hxa)]; exact hxa
    · rw [List.getElem?_append_left (getElem?_lt_of_some hjb)]; exact hjb
  · exfalso
    cases m with
    | zero => simp at hnew
    | succ m0 => simp at hnew

lemma traceOrdered_append_train {F L : Type} {t : List (Op F L)} (ho : traceOrdered t)
    (i : Nat) (x : F) (y : L) : traceOrdered (t ++ [Op.trainOp i x y]) := by
  intro k i' y' p' hk
  rcases getElem?_append_cases t _ k _ hk with ⟨hlt, hold⟩ | ⟨m, hm, hnew⟩
  · obtain ⟨⟨xa, hxa⟩, ⟨j, xb, hj, hjb⟩⟩ := ho k i' y' p' hold
    refine ⟨⟨xa, ?_⟩, ⟨j, xb, hj, ?_⟩⟩
    · rw [List.getElem?_append_left (getElem?_lt_of_some hxa)]; exact hxa
    · rw [List.getElem?_append_left (getElem?_lt_of_some hjb)]; exact hjb
  · exfalso
    cases m with
    | zero => simp at hnew
    | succ m0 => simp at hnew

lemma traceOrdered_append_update_train {F L : Type} {t : List (Op F L)} (ho : traceOrdered t)
    (i : Nat) (x : F) (y : L) (p : PyVal)
    (hpred : ∃ (j : Nat) (xp : F), t[j]? = some (Op.predictOp i xp p)) :
    traceOrdered (t ++ [Op.updateOp i y p, Op.trainOp i x y]) := by
  intro k i' y' p' hk
  rcases getElem?_append_cases t _ k _ hk with ⟨hlt, hold⟩ | ⟨m, hm, hnew⟩
  · obtain ⟨⟨xa, hxa⟩, ⟨j, xb, hj, hjb⟩⟩ := ho k i' y' p' hold
    refine ⟨⟨xa, ?_⟩, ⟨j, xb, hj, ?_⟩⟩
    · rw [List.getElem?_append_left (getElem?_lt_of_some hxa)]; exact hxa
    · rw [List.getElem?_append_left (getElem?_lt_of_some hjb)]; exact hjb
  · cases m with
    | zero =>
      have hup : Op.updateOp (F := F) (L := L) i y p = Op.updateOp i' y' p' := by
        simpa using hnew
      obtain ⟨hi, hy, hp⟩ : i = i' ∧ y = y' ∧ p = p' := by
        injection hup with a b c
        exact ⟨a, b, c⟩
      subst hi; subst hy; subst hp
      constructor
      · refine ⟨x, ?_⟩
        rw [hm]
        have : t.length + 0 + 1 = t.length + 1 := by omega
        rw [this, List.getElem?_append_right (by omega)]
        simp
      · obtain ⟨j, xp, hj⟩ := hpred
        refine ⟨j, xp, ?_, ?_⟩
        · have := getElem?_lt_of_some hj
          omega
        · rw [List.getElem?_append_left (getElem?_lt_of_some hj)]
          exact hj
    | succ m0 =>
      exfalso
      cases m0 with
      | zero => simp at hnew
      | succ m1 => simp at hnew

lemma predsTraced_init {M Me F L : Type} (ctx : RunCtx M Me F L) (m : M) (me : Me) :
    predsTraced (initState ctx m me) := by
  intro q hq
  simp [initState] at hq

lemma traceOrdered_nil {F L : Type} : traceOrdered ([] : List (Op F L)) := by
  intro k i y p hk
  simp at hk

lemma step_inv {M Me F L : Type} (ctx : RunCtx M Me F L) (s : RunState M Me F L)
    (e : Event F L) (h1 : predsTraced s) (h2 : traceOrdered s.trace) :
    predsTraced (step ctx s e).state ∧ traceOrdered (step ctx s e).state.trace := by
  cases hey : e.y with
  | none =>
    rw [step_question ctx s e hey]
    dsimp only [RunResult.state]
    constructor
    · intro q hq
      rcases mem_dictInsert hq with hold | hnew
      · obtain ⟨j, x, hj⟩ := h1 q hold
        exact ⟨j, x, by rw [List.getElem?_append_left (getElem?_lt_of_some hj)]; exact hj⟩
      · refine ⟨s.trace.length, e.x, ?_⟩
        rw [hnew]
        exact List.getElem?_concat_length _ _
    · exact traceOrdered_append_predict h2 e.i e.x (pred_func ctx s.model e.x)
  | some y =>
    cases hpop : dictPop s.preds e.i with
    | none =>
      rw [step_answer_missing ctx s e y hey hpop]
      exact ⟨h1, h2⟩
    | some pd =>
      obtain ⟨p, d'⟩ := pd
      obtain ⟨s', hs, hmodel, hmetric, hpreds, hn, hstart, htrace, hout⟩ :=
        step_answer_found ctx s e y p d' hey hpop
      rw [hs]
      dsimp only [RunResult.state]
      obtain ⟨hmem, hfilter⟩ := dictPop_some hpop
      have hpt : predsTraced s' := by
        intro q hq
        rw [hpreds, hfilter] at hq
        obtain ⟨j, x, hj⟩ := h1 q (List.mem_of_mem_filter hq)
        refine ⟨j, x, ?_⟩
        rw [htrace, List.append_assoc,
            List.getElem?_append_left (getElem?_lt_of_some hj)]
        exact hj
      refine ⟨hpt, ?_⟩
      rw [htrace]
      cases hdu : pyNeEmptyDict p && !(pyIsNone p) with
      | false =>
        have := traceOrdered_append_train h2 e.i e.x y
        simpa using this
      | true =>
        have hpred : ∃ (j : Nat) (xp : F), s.trace[j]? = some (Op.predictOp e.i xp p) :=
          h1 (e.i, p) hmem
        have := traceOrdered_append_update_train h2 e.i e.x y p hpred
        simpa using this

lemma runEvents_inv {M Me F L : Type} (ctx : RunCtx M Me F L) (events : List (Event F L)) :
    ∀ s : RunState M Me F L, predsTraced s → traceOrdered s.trace →
      predsTraced (runEvents ctx events s).state ∧
      traceOrdered (runEvents ctx events s).state.trace := by
  induction events with
  | nil => intro s h1 h2; exact ⟨h1, h2⟩
  | cons e es ih =>
    intro s h1 h2
    have hs := step_inv ctx s e h1 h2
    unfold runEvents
    cases hst : step ctx s e with
    | err ex s' =>
      rw [hst] at hs
      exact hs
    | ok s' =>
      rw [hst] at hs
      exact ih s' hs.1 hs.2

lemma printedCounters_succ (pe n : Nat) :
    printedCounters pe (n + 1) = printedCounters pe n
      ++ (if pe != 0 && (n + 1) % pe == 0 then [n + 1] else []) := by
  unfold printedCounters
  simp only [List.range_succ, List.map_append, List.filter_append, List.map_cons,
    List.map_nil, List.filter_cons]
  split
  · simp
  · simp

lemma step_out {M Me F L : Type} (ctx : RunCtx M Me F L) (s : RunState M Me F L)
    (e : Event F L)
    (h : s.out.map Msg.n_total_answers = printedCounters ctx.print_every s.n_total_answers) :
    (step ctx s e).state.out.map Msg.n_total_answers
      = printedCounters ctx.print_every (step ctx s e).state.n_total_answers := by
  cases hey : e.y with
  | none =>
    rw [step_question ctx s e hey]
    dsimp only [RunResult.state]
    exact h
  | some y =>
    cases hpop : dictPop s.preds e.i with
    | none =>
      rw [step_answer_missing ctx s e y hey hpop]
      exact h
    | some pd =>
      obtain ⟨p, d'⟩ := pd
      obtain ⟨s', hs, -, -, -, hn, -, -, hout⟩ :=
        step_answer_found ctx s e y p d' hey hpop
      rw [hs]
      dsimp only [RunResult.state]
      rw [hout, hn, h, printedCounters_succ]

lemma runEvents_out {M Me F L : Type} (ctx : RunCtx M Me F L) (events : List (Event F L)) :
    ∀ s : RunState M Me F L,
      s.out.map Msg.n_total_answers = printedCounters ctx.print_every s.n_total_answers →
      (runEvents ctx events s).state.out.map Msg.n_total_answers
        = printedCounters ctx.print_every (runEvents ctx events s).state.n_total_answers := by
  induction events with
  | nil => intro s h; exact h
  | cons e es ih =>
    intro s h
    have hs := step_out ctx s e h
    unfold runEvents
    cases hst : step ctx s e with
    | err ex s' =>
      rw [hst] at hs
      exact hs
    | ok s' =>
      rw [hst] at hs
      exact ih s' hs

lemma countTrain_single_predict {F L : Type} (i : Nat) (x : F) (p : PyVal) :
    countTrain ([Op.predictOp i x p] : List (Op F L)) = 0 := by
  simp [countTrain]

lemma step_countTrain {M Me F L : Type} (ctx : RunCtx M Me F L) (s : RunState M Me F L)
    (e : Event F L) (h : countTrain s.trace = s.n_total_answers) :
    countTrain (step ctx s e).state.trace = (step ctx s e).state.n_total_answers := by
  cases hey : e.y with
  | none =>
    rw [step_question ctx s e hey]
    dsimp only [RunResult.state]
    rw [countTrain, List.countP_append]
    simpa [countTrain] using h
  | some y =>
    cases hpop : dictPop s.preds e.i with
    | none =>
      rw [step_answer_missing ctx s e y hey hpop]
      exact h
    | some pd =>
      obtain ⟨p, d'⟩ := pd
      obtain ⟨s', hs, -, -, -, hn, -, htrace, -⟩ :=
        step_answer_found ctx s e y p d' hey hpop
      rw [hs]
      dsimp only [RunResult.state]
      rw [hn, htrace, countTrain, List.countP_append, List.countP_append]
      cases hdu : pyNeEmptyDict p && !(pyIsNone p) with
      | false => simpa [countTrain] using h
      | true => simpa [countTrain] using h

lemma runEvents_countTrain {M Me F L : Type} (ctx : RunCtx M Me F L)
    (events : List (Event F L)) :
    ∀ s : RunState M Me F L, countTrain s.trace = s.n_total_answers →
      countTrain (runEvents ctx events s).state.trace
        = (runEvents ctx events s).state.n_total_answers := by
  induction events with
  | nil => intro s h; exact h
  | cons e es ih =>
    intro s h
    have hs := step_countTrain ctx s e h
    unfold runEvents
    cases hst : step ctx s e with
    | err ex s' =>
      rw [hst] at hs
      exact hs
    | ok s' =>
      rw [hst] at hs
      exact ih s' hs

lemma runEvents_outstanding {M Me F L : Type} (ctx : RunCtx M Me F L)
    (events : List (Event F L)) :
    ∀ (l lfin : List Nat) (s : RunState M Me F L),
      s.preds.map Prod.fst = l → qaOutstanding l events = some lfin →
      ∃ s', runEvents ctx events s = .ok s' ∧ s'.preds.map Prod.fst = lfin := by
  induction events with
  | nil =>
    intro l lfin s hk hq
    refine ⟨s, rfl, ?_⟩
    simp only [qaOutstanding, Option.some.injEq] at hq
    rw [hk, hq]
  | cons e es ih =>
    intro l lfin s hk hq
    unfold qaOutstanding at hq
    cases hey : e.y with
    | none =>
      rw [hey] at hq
      by_cases hmem : e.i ∈ l
      · rw [if_pos hmem] at hq
        exact absurd hq (by simp)
      · rw [if_neg hmem] at hq
        have hfresh : e.i ∉ s.preds.map Prod.fst := hk ▸ hmem
        unfold runEvents
        rw [step_question ctx s e hey]
        dsimp only
        apply ih (l ++ [e.i]) lfin _ _ hq
        show (dictInsert s.preds e.i (pred_func ctx s.model e.x)).map Prod.fst = l ++ [e.i]
        rw [dictInsert_fresh (pred_func ctx s.model e.x) hfresh]
        simp [hk]
    | some yv =>
      rw [hey] at hq
      dsimp only at hq
      by_cases hmem : e.i ∈ l
      · rw [if_pos hmem] at hq
        obtain ⟨p, hpop⟩ := dictPop_of_mem (hk ▸ hmem)
        obtain ⟨s', hs, -, -, hpreds, -, -, -, -⟩ :=
          step_answer_found ctx s e yv p _ hey hpop
        unfold runEvents
        rw [hs]
        dsimp only
        apply ih (l.filter (fun j => j != e.i)) lfin s' _ hq
        rw [hpreds, keys_filter, hk]
      · rw [if_neg hmem] at hq
        exact absurd hq (by simp)

lemma dictInsert_nil (i : Nat) (p : PyVal) : dictInsert [] i p = [(i, p)] := rfl

lemma dictPop_singleton_self (i : Nat) (p : PyVal) :
    dictPop [(i, p)] i = some (p, []) := by
  simp [dictPop, List.find?_cons]

lemma runEvents_nodelay {M Me F L : Type} (ctx : RunCtx M Me F L)
    (hp : ∀ (mm : M) (x : F),
      (pyNeEmptyDict (pred_func ctx mm x) && !(pyIsNone (pred_func ctx mm x))) = true) :
    ∀ (xs : List (F × L)) (k : Nat) (s : RunState M Me F L), s.preds = [] →
      ∃ s', runEvents ctx ((xs.enumFrom k).flatMap qaPair) s = .ok s' ∧
        s'.preds = [] ∧ (s'.model, s'.metric) = manual_run ctx s.model s.metric xs := by
  intro xs
  induction xs with
  | nil =>
    intro k s h0
    exact ⟨s, rfl, h0, rfl⟩
  | cons xy rest ih =>
    obtain ⟨x, y⟩ := xy
    intro k s h0
    have hflat : ((((x, y) :: rest).enumFrom k).flatMap qaPair)
        = Event.mk k x none :: Event.mk k x (some y)
            :: ((rest.enumFrom (k + 1)).flatMap qaPair) := by
      simp [List.enumFrom, qaPair]
    rw [hflat]
    have hq1 := step_question ctx s (Event.mk k x none) rfl
    unfold runEvents
    rw [hq1]
    dsimp only
    have hpop : dictPop (dictInsert s.preds k (pred_func ctx s.model x)) k
        = some (pred_func ctx s.model x, []) := by
      rw [h0, dictInsert_nil, dictPop_singleton_self]
    obtain ⟨s2, hs2, hmodel2, hmetric2, hpreds2, -, -, -, -⟩ :=
      step_answer_found ctx
        { s with preds := dictInsert s.preds k (pred_func ctx s.model x),
                 trace := s.trace ++ [Op.predictOp k x (pred_func ctx s.model x)] }
        (Event.mk k x (some y)) y (pred_func ctx s.model x) [] rfl hpop
    unfold runEvents
    rw [hs2]
    dsimp only
    obtain ⟨s3, hrun3, hpreds3, hman3⟩ := ih (k + 1) s2 hpreds2
    refine ⟨s3, hrun3, hpreds3, ?_⟩
    rw [hman3, hmodel2, hmetric2]
    dsimp only
    rw [if_pos (hp s.model x)]
    rfl

lemma runEvents_cons_ok {M Me F L : Type} (ctx : RunCtx M Me F L) (e : Event F L)
    (es : List (Event F L)) (s s' : RunState M Me F L) (h : step ctx s e = .ok s') :
    runEvents ctx (e :: es) s = runEvents ctx es s' := by
  conv_lhs => rw [runEvents]
  rw [h]

/-- C1: a question event (label absent) only computes and stores the
prediction — the state returned by the loop body has the metric, model,
counter and printed lines unchanged and records exactly one predict
operation — and in the trace of any full run every metric update is
immediately followed by the training call on the same observation and
uses a prediction recorded strictly earlier at a question event with the
same index, so the metric is never updated with a prediction computed
after the training call for that observation. -/
theorem C1_progressive_validation_order :
    (∀ (M Me F L : Type) (ctx : RunCtx M Me F L) (s : RunState M Me F L) (e : Event F L),
      e.y = none →
      step ctx s e = .ok { s with
        preds := dictInsert s.preds e.i (pred_func ctx s.model e.x),
        trace := s.trace ++ [Op.predictOp e.i e.x (pred_func ctx s.model e.x)] }) ∧
    (∀ (M Me F L : Type) (ctx : RunCtx M Me F L) (events : List (Event F L)) (m : M) (me : Me),
      traceOrdered ((progressive_val_score ctx events m me).state.trace)) := by
  constructor
  · intro M Me F L ctx s e h
    exact step_question ctx s e h
  · intro M Me F L ctx events m me
    unfold progressive_val_score
    split
    · exact (runEvents_inv ctx events (initState ctx m me) (predsTraced_init ctx m me)
        traceOrdered_nil).2
    · exact traceOrdered_nil

/-- Witness for C1 at a concrete question event and a concrete run. -/
theorem C1_progressive_validation_order_app :
    step natCtx (initState natCtx 0 0) ⟨0, (), none⟩ = .ok { initState natCtx 0 0 with
      preds := dictInsert (initState natCtx 0 0).preds 0
        (pred_func natCtx (initState natCtx 0 0).model ()),
      trace := (initState natCtx 0 0).trace
        ++ [Op.predictOp 0 () (pred_func natCtx (initState natCtx 0 0).model ())] } ∧
    traceOrdered ((progressive_val_score natCtx (simulate_qa_nodelay stream10) 0 0).state.trace) :=
  ⟨C1_progressive_validation_order.1 Nat Nat Unit Nat natCtx (initState natCtx 0 0)
      ⟨0, (), none⟩ rfl,
   C1_progressive_validation_order.2 Nat Nat Unit Nat natCtx (simulate_qa_nodelay stream10) 0 0⟩

/-- C2: at an answer event whose pending prediction is found, the model
is always trained on (features, label); the metric is updated with the
true label then the prediction exactly when the prediction is neither an
empty mapping nor None, and left unchanged otherwise; the loop body adds
exactly one training operation, and over any full run the number of
training operations equals the answered-observation counter, so each
answered observation is trained on exactly once. -/
theorem C2_answer_update_then_train :
    (∀ (M Me F L : Type) (ctx : RunCtx M Me F L) (s : RunState M Me F L) (e : Event F L)
       (y : L) (p : PyVal) (d' : List (Nat × PyVal)),
      e.y = some y → dictPop s.preds e.i = some (p, d') →
      ∃ s', step ctx s e = .ok s' ∧
        s'.model = ctx.md.fit_one s.model e.x y ∧
        ((pyNeEmptyDict p && !(pyIsNone p)) = true → s'.metric = ctx.mt.update s.metric y p) ∧
        ((pyNeEmptyDict p && !(pyIsNone p)) = false → s'.metric = s.metric) ∧
        countTrain s'.trace = countTrain s.trace + 1) ∧
    (∀ (M Me F L : Type) (ctx : RunCtx M Me F L) (events : List (Event F L)) (m : M) (me : Me),
      countTrain ((progressive_val_score ctx events m me).state.trace)
        = (progressive_val_score ctx events m me).state.n_total_answers) := by
  constructor
  · intro M Me F L ctx s e y p d' hy hpop
    obtain ⟨s', hs, hmodel, hmetric, -, -, -, htrace, -⟩ :=
      step_answer_found ctx s e y p d' hy hpop
    refine ⟨s', hs, hmodel, ?_, ?_, ?_⟩
    · intro hdu
      rw [hmetric, if_pos hdu]
    · intro hdu
      rw [hmetric, if_neg (by simp [hdu])]
    · rw [htrace]
      simp only [countTrain, List.countP_append]
      cases hdu : pyNeEmptyDict p && !(pyIsNone p) <;> simp [List.countP_cons]
  · intro M Me F L ctx events m me
    unfold progressive_val_score
    split
    · exact runEvents_countTrain ctx events (initState ctx m me) (by simp [initState, countTrain])
    · simp [RunResult.state, initState, countTrain]

/-- Witness for C2 at a concrete answer event and a concrete run. -/
theorem C2_answer_update_then_train_app :
    (∃ s', step natCtx { initState natCtx 0 0 with preds := [(0, PyVal.vInt 7)] }
        ⟨0, (), some 2⟩ = .ok s' ∧
      s'.model = natCtx.md.fit_one (initState natCtx 0 0).model () 2 ∧
      ((pyNeEmptyDict (PyVal.vInt 7) && !(pyIsNone (PyVal.vInt 7))) = true →
        s'.metric = natCtx.mt.update (initState natCtx 0 0).metric 2 (PyVal.vInt 7)) ∧
      ((pyNeEmptyDict (PyVal.vInt 7) && !(pyIsNone (PyVal.vInt 7))) = false →
        s'.metric = (initState natCtx 0 0).metric) ∧
      countTrain s'.trace = countTrain (initState natCtx 0 0).trace + 1) ∧
    countTrain ((progressive_val_score natCtx (simulate_qa_nodelay stream10) 0 0).state.trace)
      = (progressive_val_score natCtx (simulate_qa_nodelay stream10) 0 0).state.n_total_answers :=
  ⟨C2_answer_update_then_train.1 Nat Nat Unit Nat natCtx
      { initState natCtx 0 0 with preds := [(0, PyVal.vInt 7)] }
      ⟨0, (), some 2⟩ 2 (PyVal.vInt 7) [] rfl (by decide),
   C2_answer_update_then_train.2 Nat Nat Unit Nat natCtx (simulate_qa_nodelay stream10) 0 0⟩

/-- C3: when the metric declares itself incompatible with the model,
progressive_val_score raises ValueError before consuming any event: the
state carried by the raised error is the initial one, with the given
model and metric states untouched, no operations in the trace, nothing
printed, no pending predictions and a zero answer counter. -/
theorem C3_incompatible_metric_fails_first :
    ∀ (M Me F L : Type) (ctx : RunCtx M Me F L) (events : List (Event F L)) (m : M) (me : Me),
      ctx.mt.works_with m = false →
      progressive_val_score ctx events m me = .err .valueError (initState ctx m me) ∧
      (initState ctx m me).model = m ∧ (initState ctx m me).metric = me ∧
      (initState ctx m me).trace = [] ∧ (initState ctx m me).out = [] ∧
      (initState ctx m me).preds = [] ∧ (initState ctx m me).n_total_answers = 0 := by
  intro M Me F L ctx events m me h
  refine ⟨?_, rfl, rfl, rfl, rfl, rfl, rfl⟩
  unfold progressive_val_score
  rw [h]
  rfl

/-- Witness for C3 with a metric that rejects every model. -/
theorem C3_incompatible_metric_fails_first_app :
    progressive_val_score badCtx (simulate_qa_nodelay stream10) 0 0
        = .err .valueError (initState badCtx 0 0) ∧
    (initState badCtx 0 0).model = 0 ∧ (initState badCtx 0 0).metric = 0 ∧
    (initState badCtx 0 0).trace = [] ∧ (initState badCtx 0 0).out = [] ∧
    (initState badCtx 0 0).preds = [] ∧ (initState badCtx 0 0).n_total_answers = 0 :=
  C3_incompatible_metric_fails_first Nat Nat Unit Nat badCtx (simulate_qa_nodelay stream10) 0 0 rfl

/-- C4: an answer event whose index has no pending prediction makes
progressive_val_score raise KeyError; the error propagates to the caller
past all remaining events, and the state it carries is exactly the state
from before the event — no metric update and no training happened for
that event and nothing replaced the missing key. -/
theorem C4_missing_pending_prediction_fatal :
    ∀ (M Me F L : Type) (ctx : RunCtx M Me F L) (pre es : List (Event F L)) (e : Event F L)
      (y : L) (m : M) (me : Me) (s : RunState M Me F L),
      ctx.mt.works_with m = true →
      runEvents ctx pre (initState ctx m me) = .ok s →
      e.y = some y → dictPop s.preds e.i = none →
      progressive_val_score ctx (pre ++ e :: es) m me = .err (.keyError e.i) s := by
  intro M Me F L ctx pre es e y m me s hw hpre hy hmiss
  unfold progressive_val_score
  rw [hw, if_pos rfl, runEvents_append, hpre]
  dsimp only
  unfold runEvents
  rw [step_answer_missing ctx s e y hy hmiss]

/-- Witness for C4: the very first event answers an index never asked. -/
theorem C4_missing_pending_prediction_fatal_app :
    progressive_val_score natCtx ([] ++ (⟨0, (), some 1⟩ : Event Unit Nat) :: []) 0 0
      = .err (.keyError 0) (initState natCtx 0 0) :=
  C4_missing_pending_prediction_fatal Nat Nat Unit Nat natCtx [] [] ⟨0, (), some 1⟩ 1 0 0
    (initState natCtx 0 0) rfl rfl rfl rfl

/-- C5: over any run, the counters carried by the printed diagnostic
lines are exactly the positive multiples of print_every up to the final
answered-observation counter, in order — lines appear only at exact
positive multiples of a nonzero print_every; with print_every zero no
line is ever printed; and on a ten-observation no-delay stream with
print_every five exactly two lines appear, after the fifth and tenth
answered observations. -/
theorem C5_print_every_multiples :
    (∀ (M Me F L : Type) (ctx : RunCtx M Me F L) (events : List (Event F L)) (m : M) (me : Me),
      ((progressive_val_score ctx events m me).state.out).map Msg.n_total_answers
        = printedCounters ctx.print_every
            ((progressive_val_score ctx events m me).state.n_total_answers)) ∧
    (∀ n : Nat, printedCounters 0 n = []) ∧
    (((progressive_val_score natCtx (simulate_qa_nodelay stream10) 0 0).state.out).map
        Msg.n_total_answers = [5, 10]) := by
  refine ⟨?_, ?_, by decide⟩
  · intro M Me F L ctx events m me
    unfold progressive_val_score
    split
    · exact runEvents_out ctx events (initState ctx m me)
        (by simp [initState, printedCounters])
    · simp [RunResult.state, initState, printedCounters]
  · intro n
    simp [printedCounters]

/-- C6: the pending-predictions dict starts empty; along any prefix of a
stream accepted by the question/answer discipline its keys are exactly
the outstanding (asked but not yet answered) indices in order — each
index enters at its question event and leaves at its answer event, and
the dict never holds more entries than there are outstanding
observations — and a compatible run over a well-formed stream returns
normally with the dict empty. -/
theorem C6_pending_predictions_lifecycle :
    (∀ (M Me F L : Type) (ctx : RunCtx M Me F L) (m : M) (me : Me),
      (initState ctx m me).preds = []) ∧
    (∀ (M Me F L : Type) (ctx : RunCtx M Me F L) (events : List (Event F L)) (m : M) (me : Me),
      ctx.mt.works_with m = true → wellFormed events →
      ∃ s', progressive_val_score ctx events m me = .ok s' ∧ s'.preds = []) ∧
    (∀ (M Me F L : Type) (ctx : RunCtx M Me F L) (pre : List (Event F L)) (l : List Nat)
       (m : M) (me : Me),
      qaOutstanding [] pre = some l →
      ∃ s', runEvents ctx pre (initState ctx m me) = .ok s' ∧
        s'.preds.map Prod.fst = l ∧ s'.preds.length = l.length) := by
  refine ⟨fun M Me F L ctx m me => rfl, ?_, ?_⟩
  · intro M Me F L ctx events m me hw hwf
    unfold progressive_val_score
    rw [hw, if_pos rfl]
    obtain ⟨s', hrun, hkeys⟩ :=
      runEvents_outstanding ctx events [] [] (initState ctx m me) rfl hwf
    exact ⟨s', hrun, List.map_eq_nil_iff.mp hkeys⟩
  · intro M Me F L ctx pre l m me hq
    obtain ⟨s', hrun, hkeys⟩ :=
      runEvents_outstanding ctx pre [] l (initState ctx m me) rfl hq
    refine ⟨s', hrun, hkeys, ?_⟩
    rw [← hkeys, List.length_map]

/-- Witness for C6: the initial dict, a full well-formed run, and a
one-question prefix with one outstanding index. -/
theorem C6_pending_predictions_lifecycle_app :
    (initState natCtx 0 0).preds = [] ∧
    (∃ s', progressive_val_score natCtx (simulate_qa_nodelay stream10) 0 0 = .ok s' ∧
      s'.preds = []) ∧
    (∃ s', runEvents natCtx [⟨3, (), none⟩] (initState natCtx 0 0) = .ok s' ∧
      s'.preds.map Prod.fst = [3] ∧ s'.preds.length = ([3] : List Nat).length) :=
  ⟨C6_pending_predictions_lifecycle.1 Nat Nat Unit Nat natCtx 0 0,
   C6_pending_predictions_lifecycle.2.1 Nat Nat Unit Nat natCtx (simulate_qa_nodelay stream10)
     0 0 rfl (by unfold wellFormed; decide),
   C6_pending_predictions_lifecycle.2.2 Nat Nat Unit Nat natCtx [⟨3, (), none⟩] [3] 0 0
     (by decide)⟩

/-- Counterexample to C7 as stated: with a cold-start model whose
prediction is always the empty mapping, the no-delay run skips every
metric update while the manual predict-update-train loop updates the
metric each time, so the returned metrics differ on a one-observation
stream. -/
theorem C7_nodelay_not_identical_cex :
    ¬ ((progressive_val_score coldCtx (simulate_qa_nodelay [((), ())]) () 0).state.metric
        = (manual_run coldCtx () 0 [((), ())]).2) := by decide

/-- C7 amended: for a compatible metric and a model whose selected
prediction call never returns an empty mapping or None, the no-delay run
returns normally and its final metric and model states are exactly those
of the manual loop that, for each observation in arrival order,
predicts, updates the metric and then trains. -/
theorem C7_nodelay_equiv_nondegenerate :
    ∀ (M Me F L : Type) (ctx : RunCtx M Me F L) (X_y : List (F × L)) (m : M) (me : Me),
      ctx.mt.works_with m = true →
      (∀ (mm : M) (x : F),
        (pyNeEmptyDict (pred_func ctx mm x) && !(pyIsNone (pred_func ctx mm x))) = true) →
      ∃ s', progressive_val_score ctx (simulate_qa_nodelay X_y) m me = .ok s' ∧
        s'.metric = (manual_run ctx m me X_y).2 ∧
        s'.model = (manual_run ctx m me X_y).1 := by
  intro M Me F L ctx X_y m me hw hp
  unfold progressive_val_score
  rw [hw, if_pos rfl]
  obtain ⟨s', hrun, -, hmm⟩ := runEvents_nodelay ctx hp X_y 0 (initState ctx m me) rfl
  refine ⟨s', hrun, ?_, ?_⟩
  · exact congrArg Prod.snd hmm
  · exact congrArg Prod.fst hmm

/-- Witness for C7 amended with a model whose predictions are always
numbers. -/
theorem C7_nodelay_equiv_nondegenerate_app :
    ∃ s', progressive_val_score natCtx (simulate_qa_nodelay stream10) 0 0 = .ok s' ∧
      s'.metric = (manual_run natCtx 0 0 stream10).2 ∧
      s'.model = (manual_run natCtx 0 0 stream10).1 :=
  C7_nodelay_equiv_nondegenerate Nat Nat Unit Nat natCtx stream10 0 0 rfl (fun _ _ => rfl)

/-- C8: two runs that differ only in print_every, show_time, show_memory
and the clock agree on everything except the printed lines and clock
bookkeeping: same returned metric value, same final model state, same
pending dict, same answer counter, same operation trace, and the same
exception if one is raised — diagnostics never alter control flow or the
result. -/
theorem C8_diagnostics_no_interference :
    ∀ (M Me F L : Type) (md : Model M F L) (mt : Metric Me M L) (events : List (Event F L))
      (m : M) (me : Me) (pe1 pe2 : Nat) (t1 t2 mm1 mm2 : Bool) (c1 c2 : Nat → Nat),
      coreResult (progressive_val_score ⟨md, mt, pe1, t1, mm1, c1⟩ events m me)
        = coreResult (progressive_val_score ⟨md, mt, pe2, t2, mm2, c2⟩ events m me) := by
  intro M Me F L md mt events m me pe1 pe2 t1 t2 mm1 mm2 c1 c2
  unfold progressive_val_score
  dsimp only
  by_cases hw : mt.works_with m = true
  · rw [if_pos hw, if_pos hw]
    exact coreResult_runEvents md mt pe1 pe2 t1 t2 mm1 mm2 c1 c2 events _ _ rfl
  · rw [if_neg hw, if_neg hw]
    rfl

/-- C9: two question events with the same index before the answer raise
no error — the run of question, repeated question, answer returns
normally; the second prediction overwrites the first in the pending
dict, the value popped at the answer is the second prediction, and it is
the one offered to the metric. -/
theorem C9_duplicate_question_overwrites :
    ∀ (M Me F L : Type) (ctx : RunCtx M Me F L) (s : RunState M Me F L)
      (i : Nat) (x1 x2 xa : F) (y : L),
      ∃ s' rest,
        runEvents ctx [⟨i, x1, none⟩, ⟨i, x2, none⟩, ⟨i, xa, some y⟩] s = .ok s' ∧
        dictPop (dictInsert (dictInsert s.preds i (pred_func ctx s.model x1)) i
            (pred_func ctx s.model x2)) i
          = some (pred_func ctx s.model x2, rest) ∧
        s'.metric = (if pyNeEmptyDict (pred_func ctx s.model x2)
                        && !(pyIsNone (pred_func ctx s.model x2))
                     then ctx.mt.update s.metric y (pred_func ctx s.model x2)
                     else s.metric) := by
  intro M Me F L ctx s i x1 x2 xa y
  have h1 := step_question ctx s ⟨i, x1, none⟩ rfl
  have h2 := step_question ctx
    { s with preds := dictInsert s.preds i (pred_func ctx s.model x1),
             trace := s.trace ++ [Op.predictOp i x1 (pred_func ctx s.model x1)] }
    ⟨i, x2, none⟩ rfl
  have hpop := dictPop_dictInsert_self
    (dictInsert s.preds i (pred_func ctx s.model x1)) i (pred_func ctx s.model x2)
  obtain ⟨s3, hs3, -, hmetric3, -, -, -, -, -⟩ :=
    step_answer_found ctx
      { s with preds := dictInsert (dictInsert s.preds i (pred_func ctx s.model x1)) i
                 (pred_func ctx s.model x2),
               trace := (s.trace ++ [Op.predictOp i x1 (pred_func ctx s.model x1)])
                 ++ [Op.predictOp i x2 (pred_func ctx s.model x2)] }
      ⟨i, xa, some y⟩ y (pred_func ctx s.model x2) _ rfl hpop
  refine ⟨s3, _, ?_, hpop, hmetric3⟩
  calc runEvents ctx [⟨i, x1, none⟩, ⟨i, x2, none⟩, ⟨i, xa, some y⟩] s
      = runEvents ctx [⟨i, x2, none⟩, ⟨i, xa, some y⟩]
          { s with preds := dictInsert s.preds i (pred_func ctx s.model x1),
                   trace := s.trace ++ [Op.predictOp i x1 (pred_func ctx s.model x1)] } :=
        runEvents_cons_ok ctx _ _ _ _ h1
    _ = runEvents ctx [⟨i, xa, some y⟩]
          { s with preds := dictInsert (dictInsert s.preds i (pred_func ctx s.model x1)) i
                     (pred_func ctx s.model x2),
                   trace := (s.trace ++ [Op.predictOp i x1 (pred_func ctx s.model x1)])
                     ++ [Op.predictOp i x2 (pred_func ctx s.model x2)] } :=
        runEvents_cons_ok ctx _ _ _ _ h2
    _ = runEvents ctx [] s3 := runEvents_cons_ok ctx _ _ _ _ hs3
    _ = .ok s3 := rfl

/-- C10: the only predictions excluded from the metric update are
exactly the empty mapping and None — the guard of the loop body is false
precisely on those two values — and at an answer event whose pending
prediction is another falsy value such as the number zero, the boolean
false or the float zero, the metric is still updated with it. -/
theorem C10_only_empty_or_none_excluded :
    (∀ p : PyVal, (pyNeEmptyDict p && !(pyIsNone p)) = false
      ↔ (p = PyVal.vDict [] ∨ p = PyVal.vNone)) ∧
    (∀ (M Me F L : Type) (ctx : RunCtx M Me F L) (s : RunState M Me F L) (e : Event F L)
       (y : L) (p : PyVal) (d' : List (Nat × PyVal)),
      e.y = some y → dictPop s.preds e.i = some (p, d') →
      (p = PyVal.vInt 0 ∨ p = PyVal.vBool false ∨ p = PyVal.vFloat 0) →
      ∃ s', step ctx s e = .ok s' ∧ s'.metric = ctx.mt.update s.metric y p) := by
  constructor
  · intro p
    cases p with
    | vDict entries =>
      cases entries with
      | nil => simp [pyNeEmptyDict, pyIsNone]
      | cons a t => simp [pyNeEmptyDict, pyIsNone]
    | vNone => simp [pyNeEmptyDict, pyIsNone]
    | vBool b => simp [pyNeEmptyDict, pyIsNone]
    | vInt n => simp [pyNeEmptyDict, pyIsNone]
    | vFloat q => simp [pyNeEmptyDict, pyIsNone]
    | vStr st => simp [pyNeEmptyDict, pyIsNone]
  · intro M Me F L ctx s e y p d' hy hpop hfalsy
    have hdu : (pyNeEmptyDict p && !(pyIsNone p)) = true := by
      rcases hfalsy with h | h | h <;> subst h <;> rfl
    obtain ⟨s', hs, -, hmetric, -, -, -, -, -⟩ := step_answer_found ctx s e y p d' hy hpop
    exact ⟨s', hs, by rw [hmetric, if_pos hdu]⟩

/-- Witness for C10 at the empty mapping and at a pending prediction
that is the number zero. -/
theorem C10_only_empty_or_none_excluded_app :
    ((pyNeEmptyDict (PyVal.vDict []) && !(pyIsNone (PyVal.vDict []))) = false
      ↔ (PyVal.vDict [] = PyVal.vDict [] ∨ PyVal.vDict [] = PyVal.vNone)) ∧
    (∃ s', step natCtx { initState natCtx 0 0 with preds := [(0, PyVal.vInt 0)] }
        ⟨0, (), some 1⟩ = .ok s' ∧
      s'.metric = natCtx.mt.update (initState natCtx 0 0).metric 1 (PyVal.vInt 0)) :=
  ⟨C10_only_empty_or_none_excluded.1 (PyVal.vDict []),
   C10_only_empty_or_none_excluded.2 Nat Nat Unit Nat natCtx
     { initState natCtx 0 0 with preds := [(0, PyVal.vInt 0)] }
     ⟨0, (), some 1⟩ 1 (PyVal.vInt 0) [] rfl (by decide) (Or.inl rfl)⟩

end Creme
